import Mathlib

/-! Verification of `scripts/copy_repo_content.py`.

A shallow embedding of the repository-copy script. Pure decision logic is
translated into Lean functions; the effectful parts (HTTP calls, local git
subprocesses, the filesystem) are made explicit: an HTTP response becomes a
status code plus a decoded body, a subprocess becomes its exit code and
captured output, and the file trees become association lists from relative
paths to byte strings. Python strings that undergo per-character processing
(lowercasing, strip, split) are embedded as `List Char`; strings that are
only concatenated stay `String`. Each definition is annotated with the
source lines of `copy_repo_content.py` it embeds.
-/

set_option autoImplicit false

namespace CopyRepo

/-! ## Data model

An issue record as decoded from the hosting service's issues listing
(`get_issues`, lines 265-311, and `create_issue`, lines 313-361, read the
fields `number`, `title`, `body`, `user.login`, `created_at`, `html_url`,
`state`, `labels`, and test for the presence of a `pull_request` key). -/

/-- A label object of the remote service. The source only ever reads
`label['name']` (line 338); `color` and `description` are carried in the
payload but never copied. -/
structure Label where
  name : String
  color : String
  description : String
deriving DecidableEq

/-- An issue record, the transient projection read from the listing payload.
`body` is `none` when the JSON field is `null`; `pull_request` records
whether the payload contains a `pull_request` key (line 300). -/
structure IssueRec where
  number : Nat
  title : String
  body : Option String
  user_login : String
  created_at : String
  html_url : String
  state : String
  labels : List Label
  pull_request : Bool
deriving DecidableEq

/-- One response of the paginated issues listing endpoint: HTTP status plus
decoded page body (lines 287-294). -/
structure PageResp where
  status : Nat
  items : List IssueRec
deriving DecidableEq

/-- Python's `str.lower()` on the per-character embedding. -/
def pyLower (s : List Char) : List Char := s.map Char.toLower

/-! ## `check_dest_repo_empty` (lines 86-149) -/

/-- The allow-set of the checker, lines 121-122 (`allowed_exact`). -/
def allowed_exact : List (List Char) :=
  [".github".data, ".gitignore".data, "codeowners".data, "contributing.md".data,
   "code_of_conduct.md".data, "security.md".data]

/-- The allowed lowercase name-beginnings, line 123 (`allowed_prefixes` in
the source). -/
def allowed_name_starts : List (List Char) := ["readme".data, "license".data]

/-- Lines 127-140: one listing entry is allowed when its lowercased name is
in `allowed_exact` or begins with one of `allowed_name_starts`
(`name_lower.startswith(p)`). -/
def entryAllowed (name : List Char) : Bool :=
  let name_lower := pyLower name
  if name_lower ∈ allowed_exact then true
  else if allowed_name_starts.any (fun p => p.isPrefixOf name_lower) then true
  else false

/-- Lines 105-149: the checker keyed on the HTTP status of the destination
root-listing request and, for a 200, on the decoded entry names. A 404 means
an uninitialized repository (empty verdict); any other non-200 fails closed;
a 200 listing is scanned for entries that match neither allow rule. -/
def check_dest_repo_empty (status : Nat) (contents : List (List Char)) :
    Bool × List (List Char) :=
  if status = 404 then (true, [])
  else if status ≠ 200 then (false, [])
  else
    let unexpected_files := contents.filter (fun name => !entryAllowed name)
    if unexpected_files = [] then (true, []) else (false, unexpected_files)

/-- The allow condition exactly as the specification words it: the lowercased
name is in the six-element exact set, or begins with `readme` or `license`.
Stated independently of `entryAllowed`, to compare the code against the
spec's wording. -/
def SpecAllowedEntry (name : List Char) : Prop :=
  pyLower name ∈ [".github".data, ".gitignore".data, "codeowners".data,
    "contributing.md".data, "code_of_conduct.md".data, "security.md".data]
  ∨ List.isPrefixOf "readme".data (pyLower name) = true
  ∨ List.isPrefixOf "license".data (pyLower name) = true

instance (name : List Char) : Decidable (SpecAllowedEntry name) := by
  unfold SpecAllowedEntry; infer_instance

theorem entryAllowed_iff (name : List Char) :
    entryAllowed name = true ↔ SpecAllowedEntry name := by
  unfold entryAllowed SpecAllowedEntry allowed_exact allowed_name_starts
  simp only [List.any_cons, List.any_nil, Bool.or_false]
  split
  · simp_all
  · split
    · simp_all [Bool.or_eq_true]
    · simp_all [Bool.or_eq_true]

theorem check_dest_repo_empty_200 (contents : List (List Char)) :
    check_dest_repo_empty 200 contents
      = (if contents.filter (fun name => !entryAllowed name) = []
          then (true, [])
          else (false, contents.filter (fun name => !entryAllowed name))) := by
  unfold check_dest_repo_empty
  norm_num

/-- C2: for every 200 destination root listing, `check_dest_repo_empty`
returns `(true, [])` exactly when every entry's lowercased name is in the
exact allow-set or begins with `readme` or `license`; otherwise it returns
`(false, L)` where `L` is exactly the non-matching entries, original case
preserved (the filter keeps the un-lowercased names in listing order). -/
theorem check_dest_repo_empty_contents (contents : List (List Char)) :
    (∀ name, entryAllowed name = true ↔ SpecAllowedEntry name)
  ∧ (check_dest_repo_empty 200 contents = (true, [])
      ↔ ∀ name ∈ contents, SpecAllowedEntry name)
  ∧ ((∃ name ∈ contents, ¬ SpecAllowedEntry name) →
      check_dest_repo_empty 200 contents
        = (false, contents.filter (fun name => !entryAllowed name))
      ∧ contents.filter (fun name => !entryAllowed name) ≠ []) := by
  refine ⟨entryAllowed_iff, ?_, ?_⟩
  · rw [check_dest_repo_empty_200]
    constructor
    · intro h name hmem
      rw [← entryAllowed_iff]
      by_contra hbad
      have hne : contents.filter (fun n => !entryAllowed n) ≠ [] := by
        intro hnil
        have := List.filter_eq_nil_iff.mp hnil name hmem
        simp only [Bool.not_eq_true'] at this
        exact hbad (by simp [this])
      rw [if_neg hne] at h
      exact absurd (congrArg Prod.fst h) (by simp)
    · intro h
      have hnil : contents.filter (fun n => !entryAllowed n) = [] := by
        apply List.filter_eq_nil_iff.mpr
        intro name hmem
        have := (entryAllowed_iff name).mpr (h name hmem)
        simp [this]
      rw [if_pos hnil]
  · rintro ⟨name, hmem, hbad⟩
    have hne : contents.filter (fun n => !entryAllowed n) ≠ [] := by
      intro hnil
      have := List.filter_eq_nil_iff.mp hnil name hmem
      simp only [Bool.not_eq_true'] at this
      exact hbad ((entryAllowed_iff name).mp (by simp_all))
    rw [check_dest_repo_empty_200, if_neg hne]
    exact ⟨rfl, hne⟩

theorem check_dest_repo_empty_contents_witness :
    check_dest_repo_empty 200 ["README.md".data, "LICENSE".data, ".github".data]
      = (true, [])
  ∧ check_dest_repo_empty 200 ["README.md".data, "src".data]
      = (false, ([ "README.md".data, "src".data ].filter
          (fun name => !entryAllowed name))) :=
  ⟨(check_dest_repo_empty_contents
      ["README.md".data, "LICENSE".data, ".github".data]).2.1.mpr (by decide),
   ((check_dest_repo_empty_contents ["README.md".data, "src".data]).2.2
      ⟨"src".data, by decide, by decide⟩).1⟩

/-- C3: a 404 (uninitialized destination) yields the `empty` verdict, and any
other non-success status yields the `not empty` verdict (the check fails
closed). -/
theorem check_dest_repo_empty_status (contents : List (List Char))
    (status : Nat) :
    check_dest_repo_empty 404 contents = (true, [])
  ∧ (status ≠ 200 → status ≠ 404 →
      (check_dest_repo_empty status contents).1 = false) := by
  constructor
  · simp [check_dest_repo_empty]
  · intro h200 h404
    simp [check_dest_repo_empty, h404, h200]

theorem check_dest_repo_empty_status_witness :
    check_dest_repo_empty 404 ["src".data] = (true, [])
  ∧ (check_dest_repo_empty 500 ["src".data]).1 = false :=
  ⟨(check_dest_repo_empty_status ["src".data] 500).1,
   (check_dest_repo_empty_status ["src".data] 500).2 (by decide) (by decide)⟩

/-- C10: for every response status that is neither 200 nor 404, the checker
returns exactly `(false, [])`: the destination is reported non-empty but no
offending entries are named, unlike the genuine non-empty case where the
returned list is non-empty. -/
theorem check_dest_repo_empty_other_failure (contents : List (List Char))
    (status : Nat) :
    (status ≠ 200 → status ≠ 404 →
      check_dest_repo_empty status contents = (false, []))
  ∧ (∀ name ∈ contents, entryAllowed name = false →
      (check_dest_repo_empty 200 contents).2 ≠ []) := by
  constructor
  · intro h200 h404
    simp [check_dest_repo_empty, h404, h200]
  · intro name hmem hbad
    have hne : contents.filter (fun n => !entryAllowed n) ≠ [] := by
      intro hnil
      have := List.filter_eq_nil_iff.mp hnil name hmem
      simp [hbad] at this
    rw [check_dest_repo_empty_200, if_neg hne]
    exact hne

theorem check_dest_repo_empty_other_failure_witness :
    check_dest_repo_empty 500 ["src".data] = (false, [])
  ∧ (check_dest_repo_empty 200 ["src".data]).2 ≠ [] :=
  ⟨(check_dest_repo_empty_other_failure ["src".data] 500).1 (by decide)
      (by decide),
   (check_dest_repo_empty_other_failure ["src".data] 500).2 "src".data
      (by decide) (by decide)⟩

/-! ## `run_command` (lines 151-165)

A subprocess is embedded by its observed exit code; `run_command` raises
(`Except.error`) exactly when the exit code is non-zero. -/

/-- Lines 151-165: run a command; a non-zero exit raises an `Exception`
whose message is the failing command joined by spaces. -/
def run_command (cmd : List String) (exitCode : Nat) : Except String Unit :=
  if exitCode ≠ 0 then
    Except.error ("Command failed: " ++ String.intercalate " " cmd)
  else Except.ok ()

/-! ## The file-tree mirror inside `copy_source_code` (lines 201-225)

A cloned working copy is an association list from relative paths (lists of
path components, `item.parts`) to file bytes. `rglob` yields the source
entries (directories and files) in some order; the loop skips any entry with
a `.git` component, creates directories (no effect on the file map), and
writes each file's bytes at the same relative path in the destination. -/

/-- A relative path, as its list of components. -/
abbrev RelPath := List String

/-- File contents, byte for byte. -/
abbrev FileBytes := List Nat

/-- One entry produced by `source_dir.rglob('*')`: a directory or a file
with its bytes (lines 207-225). -/
inductive FSEntry where
  | dir (path : RelPath)
  | file (path : RelPath) (content : FileBytes)
deriving DecidableEq

/-- `dest_item.write_bytes(...)` (line 223): overwrite the entry at `p` if
present, otherwise add it. -/
def writeFileEntry : List (RelPath × FileBytes) → RelPath → FileBytes →
    List (RelPath × FileBytes)
  | [], p, c => [(p, c)]
  | e :: rest, p, c =>
    if e.1 = p then (p, c) :: rest else e :: writeFileEntry rest p c

/-- Reading a file of the tree at a relative path. -/
def lookupFile : List (RelPath × FileBytes) → RelPath → Option FileBytes
  | [], _ => none
  | e :: rest, p => if e.1 = p then some e.2 else lookupFile rest p

/-- Lines 207-225: the copy loop. `'.git' in item.parts` skips
version-control metadata; `mkdir` leaves the file map unchanged;
`write_bytes(read_bytes())` overwrites the destination file. -/
def mirror (src : List FSEntry) (dest : List (RelPath × FileBytes)) :
    List (RelPath × FileBytes) :=
  src.foldl
    (fun tree e =>
      match e with
      | .dir _ => tree
      | .file p c => if ".git" ∈ p then tree else writeFileEntry tree p c)
    dest

/-- The relative paths of all file entries of a source listing. `rglob`
yields each path at most once, so these are without duplicates for a real
working copy. -/
def filePaths : List FSEntry → List RelPath
  | [] => []
  | .dir _ :: rest => filePaths rest
  | .file q _ :: rest => q :: filePaths rest

/-- The relative paths the copy loop actually writes: file entries without a
`.git` component. -/
def writtenPaths : List FSEntry → List RelPath
  | [] => []
  | .dir _ :: rest => writtenPaths rest
  | .file p _ :: rest =>
    if ".git" ∈ p then writtenPaths rest else p :: writtenPaths rest

theorem lookupFile_writeFileEntry_self (t : List (RelPath × FileBytes))
    (p : RelPath) (c : FileBytes) :
    lookupFile (writeFileEntry t p c) p = some c := by
  induction t with
  | nil => simp [writeFileEntry, lookupFile]
  | cons e rest ih =>
    by_cases h : e.1 = p
    · simp [writeFileEntry, h, lookupFile]
    · simp [writeFileEntry, h, lookupFile, ih]

theorem lookupFile_writeFileEntry_other (t : List (RelPath × FileBytes))
    (p : RelPath) (c : FileBytes) (q : RelPath) (hq : q ≠ p) :
    lookupFile (writeFileEntry t p c) q = lookupFile t q := by
  induction t with
  | nil =>
    have hpq : ¬ p = q := fun h => hq h.symm
    simp [writeFileEntry, lookupFile, hpq]
  | cons e rest ih =>
    by_cases h : e.1 = p
    · have hqe : ¬ e.1 = q := fun h2 => hq (h2.symm.trans h)
      have hpq : ¬ p = q := fun h2 => hq h2.symm
      simp [writeFileEntry, lookupFile, h, hpq, hqe]
    · by_cases h2 : e.1 = q
      · have hqp : ¬ q = p := hq
        simp [writeFileEntry, lookupFile, h, h2, hqp]
      · simp [writeFileEntry, lookupFile, h, h2, ih]

theorem mem_writtenPaths_mem_filePaths (src : List FSEntry) (p : RelPath)
    (h : p ∈ writtenPaths src) : p ∈ filePaths src := by
  induction src with
  | nil => simp [writtenPaths] at h
  | cons e rest ih =>
    cases e with
    | dir q => exact ih h
    | file q c =>
      by_cases hg : ".git" ∈ q
      · rw [show writtenPaths (FSEntry.file q c :: rest) = writtenPaths rest
            from by simp [writtenPaths, hg]] at h
        exact List.mem_cons_of_mem q (ih h)
      · rw [show writtenPaths (FSEntry.file q c :: rest) = q :: writtenPaths rest
            from by simp [writtenPaths, hg]] at h
        rcases List.mem_cons.mp h with h1 | h1
        · exact List.mem_cons.mpr (Or.inl h1)
        · exact List.mem_cons.mpr (Or.inr (ih h1))

theorem mirror_frame (src : List FSEntry) (p : RelPath) :
    ∀ dest : List (RelPath × FileBytes), p ∉ writtenPaths src →
      lookupFile (mirror src dest) p = lookupFile dest p := by
  induction src with
  | nil => intro dest _; rfl
  | cons e rest ih =>
    intro dest h
    cases e with
    | dir q =>
      show lookupFile (mirror rest dest) p = lookupFile dest p
      exact ih dest h
    | file q c =>
      by_cases hg : ".git" ∈ q
      · show lookupFile (mirror rest (if ".git" ∈ q then dest
            else writeFileEntry dest q c)) p = lookupFile dest p
        rw [if_pos hg]
        refine ih dest ?_
        intro hw
        apply h
        rw [show writtenPaths (FSEntry.file q c :: rest) = writtenPaths rest
            from by simp [writtenPaths, hg]]
        exact hw
      · have hq : p ∉ q :: writtenPaths rest := by
          rw [show writtenPaths (FSEntry.file q c :: rest)
              = q :: writtenPaths rest from by simp [writtenPaths, hg]] at h
          exact h
        have hne : p ≠ q := fun hpq => hq (List.mem_cons.mpr (Or.inl hpq))
        have hrest : p ∉ writtenPaths rest :=
          fun hr => hq (List.mem_cons.mpr (Or.inr hr))
        show lookupFile (mirror rest (if ".git" ∈ q then dest
            else writeFileEntry dest q c)) p = lookupFile dest p
        rw [if_neg hg, ih (writeFileEntry dest q c) hrest]
        exact lookupFile_writeFileEntry_other dest q c p hne

theorem mirror_copies (src : List FSEntry) (p : RelPath) (c : FileBytes)
    (hgit : ".git" ∉ p) :
    ∀ dest : List (RelPath × FileBytes), FSEntry.file p c ∈ src →
      (filePaths src).Nodup → lookupFile (mirror src dest) p = some c := by
  induction src with
  | nil =>
    intro dest hmem _
    simp at hmem
  | cons e rest ih =>
    intro dest hmem hnd
    rcases List.mem_cons.mp hmem with he | hrest
    · subst he
      simp only [filePaths, List.nodup_cons] at hnd
      have hnotrest : p ∉ writtenPaths rest :=
        fun hw => hnd.1 (mem_writtenPaths_mem_filePaths rest p hw)
      show lookupFile (mirror rest (if ".git" ∈ p then dest
          else writeFileEntry dest p c)) p = some c
      rw [if_neg hgit, mirror_frame rest p _ hnotrest]
      exact lookupFile_writeFileEntry_self dest p c
    · cases e with
      | dir q =>
        show lookupFile (mirror rest dest) p = some c
        exact ih dest hrest (by simpa [filePaths] using hnd)
      | file q c2 =>
        simp only [filePaths, List.nodup_cons] at hnd
        show lookupFile (mirror rest (if ".git" ∈ q then dest
            else writeFileEntry dest q c2)) p = some c
        exact ih _ hrest hnd.2

/-- C6: the copy loop of `copy_source_code` writes every source file's bytes
at the same relative path in the destination (overwriting what was there,
skipping any path with a `.git` component), and leaves every destination
path that is not a written source path — destination-only files and skipped
`.git` paths — exactly as it was: the mirror is additive/overwriting, never
subtractive. -/
theorem copy_source_code_mirror (src : List FSEntry)
    (dest : List (RelPath × FileBytes)) :
    (∀ p c, FSEntry.file p c ∈ src → ".git" ∉ p → (filePaths src).Nodup →
        lookupFile (mirror src dest) p = some c)
  ∧ (∀ p, p ∉ writtenPaths src →
        lookupFile (mirror src dest) p = lookupFile dest p) :=
  ⟨fun p c h1 h2 h3 => mirror_copies src p c h2 dest h1 h3,
   fun p h => mirror_frame src p dest h⟩

/-- Concrete source listing for the mirror witness: one directory, one real
file, one file under the version-control metadata directory. -/
def srcEx : List FSEntry :=
  [FSEntry.dir ["a"], FSEntry.file ["a", "x.txt"] [1, 2],
   FSEntry.file [".git", "config"] [3]]

/-- Concrete destination tree for the mirror witness: one destination-only
file and one file the mirror overwrites. -/
def destEx : List (RelPath × FileBytes) :=
  [(["b.txt"], [9]), (["a", "x.txt"], [0])]

theorem copy_source_code_mirror_witness :
    lookupFile (mirror srcEx destEx) ["a", "x.txt"] = some [1, 2]
  ∧ lookupFile (mirror srcEx destEx) ["b.txt"] = lookupFile destEx ["b.txt"]
  ∧ lookupFile (mirror srcEx destEx) [".git", "config"]
      = lookupFile destEx [".git", "config"] :=
  ⟨(copy_source_code_mirror srcEx destEx).1 ["a", "x.txt"] [1, 2] (by decide)
      (by decide) (by decide),
   (copy_source_code_mirror srcEx destEx).2 ["b.txt"] (by decide),
   (copy_source_code_mirror srcEx destEx).2 [".git", "config"] (by decide)⟩

/-! ## `copy_source_code` (lines 167-263)

The procedure is a `try` block of git subprocesses around the mirror, with a
`finally` that removes the ephemeral working area. Each subprocess is
represented by its observed exit code; `git status --porcelain` (run through
`subprocess.run` directly, lines 240-246, its exit code never inspected)
also contributes its captured standard output. -/

/-- The observed outcomes of the external commands of one
`copy_source_code` run. -/
structure GitOutcomes where
  clone_source_exit : Nat
  clone_dest_exit : Nat
  config_email_exit : Nat
  config_name_exit : Nat
  add_exit : Nat
  status_exit : Nat
  status_stdout : List Char
  commit_exit : Nat
  push_exit : Nat
deriving DecidableEq

/-- The filesystem fact the cleanup guarantee is about: whether the
ephemeral `.temp_repo_copy` working area exists. -/
structure FSState where
  temp_exists : Bool
deriving DecidableEq

/-- Python's `str.strip()`: whitespace removed from both ends (used on the
`git status --porcelain` output, line 248). -/
def pyStrip (s : List Char) : List Char :=
  ((s.dropWhile Char.isWhitespace).reverse.dropWhile Char.isWhitespace).reverse

/-- Lines 190-257: the `try` block. Errors abort the block at the failing
step and carry the filesystem state at that point; the commit/push pair only
runs when the stripped `git status --porcelain` output is non-empty (the
status query's own exit code is never inspected). -/
def copy_source_code_try (o : GitOutcomes) (src : List FSEntry)
    (destClone : List (RelPath × FileBytes)) (s : FSState) :
    Except (String × FSState) (List (RelPath × FileBytes) × FSState) :=
  match run_command ["git", "clone", "source_url"] o.clone_source_exit with
  | .error e => .error (e, s)
  | .ok _ =>
  match run_command ["git", "clone", "dest_url"] o.clone_dest_exit with
  | .error e => .error (e, s)
  | .ok _ =>
  let newDest := mirror src destClone
  match run_command ["git", "config", "user.email", "copilot@github.com"]
      o.config_email_exit with
  | .error e => .error (e, s)
  | .ok _ =>
  match run_command ["git", "config", "user.name", "GitHub Copilot"]
      o.config_name_exit with
  | .error e => .error (e, s)
  | .ok _ =>
  match run_command ["git", "add", "."] o.add_exit with
  | .error e => .error (e, s)
  | .ok _ =>
  if pyStrip o.status_stdout ≠ [] then
    match run_command ["git", "commit", "-m", "msg"] o.commit_exit with
    | .error e => .error (e, s)
    | .ok _ =>
    match run_command ["git", "push", "origin", "HEAD"] o.push_exit with
    | .error e => .error (e, s)
    | .ok _ => .ok (newDest, s)
  else .ok (newDest, s)

/-- Lines 179-263: `copy_source_code`. The leftover working area of a prior
aborted run is removed and the area re-created (`temp_exists := true`), the
`try` block runs, and the `finally` removes the working area
(`shutil.rmtree`, line 263) on the success path and on every error path
before the exception propagates. -/
def copy_source_code (o : GitOutcomes) (src : List FSEntry)
    (destClone : List (RelPath × FileBytes)) :
    Except String (List (RelPath × FileBytes)) × FSState :=
  match copy_source_code_try o src destClone { temp_exists := true } with
  | .ok (tree, s1) => (Except.ok tree, { s1 with temp_exists := false })
  | .error (e, s1) => (Except.error e, { s1 with temp_exists := false })

/-- C7: on every exit path of `copy_source_code` — normal completion or a
failure of any clone, config, add, commit, or push step — the ephemeral
working area is absent after the function returns or the error propagates. -/
theorem copy_source_code_cleanup (o : GitOutcomes) (src : List FSEntry)
    (destClone : List (RelPath × FileBytes)) :
    ((copy_source_code o src destClone).2).temp_exists = false := by
  unfold copy_source_code
  cases h : copy_source_code_try o src destClone { temp_exists := true } with
  | ok v => rfl
  | error v => rfl

/-! ## `get_issues` (lines 265-311)

The paginated listing is embedded as the list of successive page responses
the server hands back for pages 1, 2, 3, …; a request past the end of the
list is answered with an empty 200 page (the hosting service's behaviour one
page past the last issue). `get_issues` returns the number of listing
requests made together with the aggregated issue records. -/

/-- Line 276: the fixed page size. -/
def per_page : Nat := 100

/-- Lines 278-308: the pagination loop. A non-200 response logs an error and
stops the loop (the run continues); an empty page stops it; pull-request
records are filtered out; a page whose filtered length is below `per_page`
is the last one. -/
def get_issues : List PageResp → Nat × List IssueRec
  | [] => (1, [])
  | r :: rest =>
    if r.status ≠ 200 then (1, [])
    else if r.items = [] then (1, [])
    else
      let page_issues := r.items.filter (fun i => !i.pull_request)
      if page_issues.length < per_page then (1, page_issues)
      else
        let next := get_issues rest
        (next.1 + 1, page_issues ++ next.2)

/-- The canonical server for a repository whose full issue list is `l`:
successive pages of `per_page` records (fuel-indexed to make the recursion
structural; `paginate` supplies `l.length`, which always suffices). -/
def paginate_go : Nat → List IssueRec → List (List IssueRec)
  | 0, _ => []
  | _ + 1, [] => []
  | fuel + 1, x :: xs =>
    (x :: xs).take per_page :: paginate_go fuel ((x :: xs).drop per_page)

/-- The pages of `per_page` records a repository with issue list `l` serves,
each a 200 response. -/
def paginate (l : List IssueRec) : List PageResp :=
  (paginate_go l.length l).map (fun items => { status := 200, items := items })

theorem paginate_go_nil (fuel : Nat) : paginate_go fuel [] = [] := by
  cases fuel <;> rfl

theorem paginate_go_congr (f1 : Nat) :
    ∀ (f2 : Nat) (l : List IssueRec), l.length ≤ f1 → l.length ≤ f2 →
      paginate_go f1 l = paginate_go f2 l := by
  induction f1 with
  | zero =>
    intro f2 l h1 _
    have : l = [] := List.eq_nil_of_length_eq_zero (Nat.le_zero.mp h1)
    subst this
    rw [paginate_go_nil, paginate_go_nil]
  | succ f ih =>
    intro f2 l h1 h2
    cases l with
    | nil => rw [paginate_go_nil, paginate_go_nil]
    | cons x xs =>
      cases f2 with
      | zero => simp at h2
      | succ f2q =>
        show (x :: xs).take per_page :: paginate_go f ((x :: xs).drop per_page)
            = (x :: xs).take per_page :: paginate_go f2q ((x :: xs).drop per_page)
        have hd : ((x :: xs).drop per_page).length ≤ xs.length := by
          rw [List.length_drop]
          simp only [List.length_cons, per_page]
          omega
        have hxf : xs.length ≤ f := by
          simp only [List.length_cons] at h1
          omega
        have hxf2 : xs.length ≤ f2q := by
          simp only [List.length_cons] at h2
          omega
        rw [ih f2q ((x :: xs).drop per_page) (hd.trans hxf) (hd.trans hxf2)]

theorem get_issues_paginate_aux (n : Nat) :
    ∀ L : List IssueRec, L.length = n → (∀ i ∈ L, i.pull_request = false) →
      get_issues (paginate L) = (n / per_page + 1, L) := by
  induction n using Nat.strong_induction_on with
  | _ n ih =>
    intro L hlen hnp
    cases L with
    | nil =>
      subst hlen
      simp [paginate, paginate_go, get_issues]
    | cons x xs =>
      have hpag : paginate (x :: xs)
          = { status := 200, items := (x :: xs).take per_page } ::
            (paginate_go xs.length ((x :: xs).drop per_page)).map
              (fun items => { status := 200, items := items }) := by
        unfold paginate
        rw [show (x :: xs).length = xs.length + 1 from rfl]
        rw [show paginate_go (xs.length + 1) (x :: xs)
            = (x :: xs).take per_page
              :: paginate_go xs.length ((x :: xs).drop per_page) from rfl]
        rfl
      have htk_ne : (x :: xs).take per_page ≠ [] := by
        simp [per_page]
      have hfil : ((x :: xs).take per_page).filter (fun i => !i.pull_request)
          = (x :: xs).take per_page := by
        apply List.filter_eq_self.mpr
        intro a ha
        have : a ∈ x :: xs := List.take_subset per_page (x :: xs) ha
        simp [hnp a this]
      rw [hpag]
      show (if (200 : Nat) ≠ 200 then (1, [])
        else if (x :: xs).take per_page = [] then (1, [])
        else
          let page_issues :=
            ((x :: xs).take per_page).filter (fun i => !i.pull_request)
          if page_issues.length < per_page then (1, page_issues)
          else
            let next := get_issues ((paginate_go xs.length
              ((x :: xs).drop per_page)).map
                (fun items => { status := 200, items := items }))
            (next.1 + 1, page_issues ++ next.2)) = (n / per_page + 1, x :: xs)
      rw [if_neg (by simp), if_neg htk_ne]
      simp only [hfil]
      rw [List.length_take]
      by_cases hsmall : n < per_page
      · have hmin : min per_page (x :: xs).length = (x :: xs).length := by
          rw [hlen]
          omega
        rw [hmin, if_pos (by rw [hlen]; exact hsmall)]
        have htk_all : (x :: xs).take per_page = x :: xs := by
          apply List.take_of_length_le
          rw [hlen]
          omega
        rw [htk_all, Nat.div_eq_of_lt hsmall]
      · have hge : per_page ≤ n := Nat.le_of_not_lt hsmall
        have hmin : min per_page (x :: xs).length = per_page := by
          rw [hlen]
          omega
        rw [hmin, if_neg (by omega)]
        have hfuel : paginate_go xs.length ((x :: xs).drop per_page)
            = paginate_go ((x :: xs).drop per_page).length
                ((x :: xs).drop per_page) := by
          apply paginate_go_congr
          · rw [List.length_drop]
            simp only [List.length_cons, per_page]
            omega
          · exact Nat.le_refl _
        have hdlt : ((x :: xs).drop per_page).length < n := by
          rw [List.length_drop, hlen]
          have hge100 : 100 ≤ n := by simpa [per_page] using hge
          simp only [per_page]
          omega
        have hdnp : ∀ i ∈ (x :: xs).drop per_page, i.pull_request = false :=
          fun i hi => hnp i (List.drop_subset per_page (x :: xs) hi)
        have hrec := ih ((x :: xs).drop per_page).length hdlt
          ((x :: xs).drop per_page) rfl hdnp
        rw [hfuel]
        show ((get_issues (paginate ((x :: xs).drop per_page))).1 + 1,
            (x :: xs).take per_page
              ++ (get_issues (paginate ((x :: xs).drop per_page))).2)
          = (n / per_page + 1, x :: xs)
        rw [hrec]
        simp only
        rw [List.take_append_drop]
        have harith : ((x :: xs).drop per_page).length / per_page + 1
            = n / per_page := by
          rw [List.length_drop, hlen]
          have h100 : 0 < per_page := by simp [per_page]
          have := Nat.add_div_right (n - per_page) h100
          rw [Nat.sub_add_cancel hge] at this
          omega
        rw [harith]

theorem get_issues_no_pr (pages : List PageResp) :
    ∀ i ∈ (get_issues pages).2, i.pull_request = false := by
  induction pages with
  | nil =>
    intro i hi
    simp [get_issues] at hi
  | cons r rest ih =>
    intro i hi
    simp only [get_issues] at hi
    by_cases h200 : r.status ≠ 200
    · rw [if_pos h200] at hi
      simp at hi
    · rw [if_neg h200] at hi
      by_cases hempty : r.items = []
      · rw [if_pos hempty] at hi
        simp at hi
      · rw [if_neg hempty] at hi
        by_cases hlt :
            (r.items.filter (fun j => !j.pull_request)).length < per_page
        · rw [if_pos hlt] at hi
          have := List.of_mem_filter hi
          simpa using this
        · rw [if_neg hlt] at hi
          rcases List.mem_append.mp hi with hmem | hmem
          · have := List.of_mem_filter hmem
            simpa using this
          · exact ih i hmem

/-- C1 (amended): for a repository with `N` issues (none of them pull
requests) served in pages of fixed size `per_page = 100`, `get_issues` makes
exactly `N / per_page + 1` listing requests — equal to `⌈N/P⌉` when `P` does
not divide `N`, and one more than `⌈N/P⌉` when `P` divides `N` (including
`N = 0`), because a final boundary request is needed to observe the end —
and returns exactly the `N` issue records; records with a pull-request
marker are excluded from every result; and pagination stops at the first
page that is empty or whose (filtered) length is below the page size. -/
theorem get_issues_pagination (L : List IssueRec)
    (hnp : ∀ i ∈ L, i.pull_request = false) :
    get_issues (paginate L) = (L.length / per_page + 1, L)
  ∧ (∀ pages i, i ∈ (get_issues pages).2 → i.pull_request = false)
  ∧ (∀ (r : PageResp) (rest : List PageResp), r.status = 200 → r.items = [] →
      get_issues (r :: rest) = (1, []))
  ∧ (∀ (r : PageResp) (rest : List PageResp), r.status = 200 → r.items ≠ [] →
      (r.items.filter (fun i => !i.pull_request)).length < per_page →
      get_issues (r :: rest)
        = (1, r.items.filter (fun i => !i.pull_request))) := by
  refine ⟨get_issues_paginate_aux L.length L rfl hnp,
    fun pages i hi => get_issues_no_pr pages i hi, ?_, ?_⟩
  · intro r rest h200 hempty
    simp only [get_issues]
    rw [if_neg (by simp [h200]), if_pos hempty]
  · intro r rest h200 hne hlt
    simp only [get_issues]
    rw [if_neg (by simp [h200]), if_neg hne, if_pos hlt]

/-- A concrete issue record, not a pull request, used for evaluation. -/
def sampleIssue : IssueRec :=
  { number := 7, title := "t", body := some "b", user_login := "alice",
    created_at := "2024-01-01T00:00:00Z", html_url := "https://e/7",
    state := "open", labels := [], pull_request := false }

theorem get_issues_pagination_witness :
    get_issues (paginate (List.replicate 5 sampleIssue))
      = (1, List.replicate 5 sampleIssue)
  ∧ get_issues [{ status := 200, items := [] }] = (1, []) :=
  ⟨(get_issues_pagination (List.replicate 5 sampleIssue) (by decide)).1,
   (get_issues_pagination (List.replicate 5 sampleIssue) (by decide)).2.2.1
      { status := 200, items := [] } [] rfl rfl⟩

/-- C1 counterexample: a repository with exactly `N = 100` issues (one full
page). The claim predicts `⌈100/100⌉ = 1` listing request, but the loop
receives a full page, cannot know it was the last, and issues a second
request that returns the empty boundary page: 2 requests are made. -/
theorem get_issues_ceil_count_refuted :
    (get_issues (paginate (List.replicate 100 sampleIssue))).1 = 2
  ∧ ((100 : Nat) + per_page - 1) / per_page = 1 := by
  constructor
  · rfl
  · rfl

/-! ## `create_issue` (lines 313-361) and `close_issue` (lines 363-373) -/

/-- Lines 332-335: the new issue's body — provenance metadata (original
number, author, creation date, URL), a separator, then the original body, or
the placeholder when the original body is `null` or empty (Python's
`issue_data['body'] or "(No description provided)"`). -/
def create_issue_body (i : IssueRec) : String :=
  "*Originally created as issue #" ++ toString i.number ++ " by @"
      ++ i.user_login ++ " on " ++ i.created_at ++ "*\n"
    ++ ("*Original URL: " ++ i.html_url ++ "*\n\n")
    ++ "---\n\n"
    ++ (match i.body with
        | none => "(No description provided)"
        | some b => if b = "" then "(No description provided)" else b)

/-- The provenance header alone (lines 332-333), for stating the body's
decomposition. -/
def create_issue_meta (i : IssueRec) : String :=
  "*Originally created as issue #" ++ toString i.number ++ " by @"
      ++ i.user_login ++ " on " ++ i.created_at ++ "*\n"
    ++ ("*Original URL: " ++ i.html_url ++ "*\n\n")

/-- The JSON payload posted to the issue-creation endpoint
(lines 338-344): title, synthesized body, and the label names only. -/
structure NewIssue where
  title : String
  body : String
  labels : List String
deriving DecidableEq

/-- Lines 338-344: `new_issue`. -/
def new_issue_payload (i : IssueRec) : NewIssue :=
  { title := i.title,
    body := create_issue_body i,
    labels := i.labels.map (fun l => l.name) }

/-- Lines 346-361: the outcome of one `create_issue` call, given the
creation response status. First component: success (a 201 response). Second
component: whether the follow-up `close_issue` state-change request was sent
— only after a successful creation of an originally closed issue
(lines 352-354). -/
def create_issue (i : IssueRec) (createStatus : Nat) : Bool × Bool :=
  if createStatus = 201 then (true, i.state = "closed") else (false, false)

/-- C5: the created issue's body is the provenance metadata (number, author,
date, URL), a separator, then the original body verbatim — or the
placeholder when the original body is missing (`null`) or empty; labels are
carried over by name only; and the follow-up close request is sent exactly
when the creation succeeded (201) and the original issue's state was
`closed`. -/
theorem create_issue_transform (i : IssueRec) (createStatus : Nat) :
    (∀ b, i.body = some b → b ≠ "" →
      create_issue_body i = create_issue_meta i ++ "---\n\n" ++ b)
  ∧ ((i.body = none ∨ i.body = some "") →
      create_issue_body i
        = create_issue_meta i ++ "---\n\n" ++ "(No description provided)")
  ∧ (new_issue_payload i).labels = i.labels.map (fun l => l.name)
  ∧ (new_issue_payload i).title = i.title
  ∧ (new_issue_payload i).body = create_issue_body i
  ∧ ((create_issue i createStatus).1 = true ↔ createStatus = 201)
  ∧ ((create_issue i createStatus).2 = true
      ↔ createStatus = 201 ∧ i.state = "closed") := by
  refine ⟨?_, ?_, rfl, rfl, rfl, ?_, ?_⟩
  · intro b hb hbne
    unfold create_issue_body create_issue_meta
    rw [hb]
    simp only [if_neg hbne]
  · intro hb
    unfold create_issue_body create_issue_meta
    rcases hb with hb | hb
    · rw [hb]
    · rw [hb]
      simp
  · unfold create_issue
    by_cases h : createStatus = 201
    · simp [h]
    · simp [h]
  · unfold create_issue
    by_cases h : createStatus = 201
    · by_cases hs : i.state = "closed" <;> simp [h, hs]
    · simp [h]

/-- A concrete originally-closed issue with a non-empty body, for
evaluation. -/
def closedIssue : IssueRec :=
  { number := 3, title := "bug", body := some "hello",
    user_login := "bob", created_at := "2024-02-02T00:00:00Z",
    html_url := "https://e/3", state := "closed",
    labels := [{ name := "p1", color := "f00", description := "prio" }],
    pull_request := false }

theorem create_issue_transform_witness :
    create_issue_body closedIssue
      = create_issue_meta closedIssue ++ "---\n\n" ++ "hello"
  ∧ (new_issue_payload closedIssue).labels = ["p1"]
  ∧ (create_issue closedIssue 201).2 = true :=
  ⟨(create_issue_transform closedIssue 201).1 "hello" rfl (by decide),
   (create_issue_transform closedIssue 201).2.2.1,
   ((create_issue_transform closedIssue 201).2.2.2.2.2.2).mpr
      ⟨rfl, rfl⟩⟩

/-! ## `copy_issues` (lines 375-404), with the close response made explicit

One run of the replication loop is the list of issues, each paired with the
status of its creation POST and the status of its close PATCH (meaningful
only when the close request is actually sent, i.e. on a 201 creation of an
originally closed issue). The loop keeps two counters and never raises: a
failed creation is counted and the loop moves on, while a failed close is
only printed. -/

/-- Lines 363-373: `close_issue`, by its observable verdict. A 200 response
prints the success message, anything else prints the failure message for
that item; nothing is raised, counted, or returned either way (the Python
function returns `None` on both paths). -/
def close_issue (closeStatus : Nat) : Bool :=
  if closeStatus = 200 then true else false

/-- Lines 346-361 together with 363-373: one `create_issue` call with the
close-response status carried along. The three components are: the value
returned to the loop (`True` exactly on a 201 creation — the close response
never influences it); whether the follow-up close request was sent
(lines 352-354); and whether a close-failure message was printed for the
item (line 373: the close was sent and got a non-200). -/
def create_issue_with_close (i : IssueRec) (createStatus closeStatus : Nat) :
    Bool × Bool × Bool :=
  if createStatus = 201 then
    if i.state = "closed" then (true, true, !close_issue closeStatus)
    else (true, false, false)
  else (false, false, false)

/-- Lines 393-400: the success/failure tally of the replication loop over
one run. Only the first component of `create_issue_with_close` — the value
`create_issue` returns — reaches the counters. -/
def copy_issues_tally (run : List (IssueRec × Nat × Nat)) : Nat × Nat :=
  run.foldl
    (fun counts x =>
      if (create_issue_with_close x.1 x.2.1 x.2.2).1 then
        (counts.1 + 1, counts.2)
      else (counts.1, counts.2 + 1))
    (0, 0)

theorem copy_issues_tally_go (run : List (IssueRec × Nat × Nat)) :
    ∀ a b : Nat,
      run.foldl
        (fun counts x =>
          if (create_issue_with_close x.1 x.2.1 x.2.2).1 then
            (counts.1 + 1, counts.2)
          else (counts.1, counts.2 + 1))
        (a, b)
      = (a + (run.filter
            (fun x => (create_issue_with_close x.1 x.2.1 x.2.2).1)).length,
         b + (run.filter
            (fun x => !(create_issue_with_close x.1 x.2.1 x.2.2).1)).length) := by
  induction run with
  | nil => simp
  | cons y ys ih =>
    intro a b
    by_cases h : (create_issue_with_close y.1 y.2.1 y.2.2).1 = true
    · rw [List.foldl_cons]
      simp only [h, if_true]
      rw [ih (a + 1) b]
      simp [List.filter_cons, h, Prod.ext_iff]
      omega
    · rw [List.foldl_cons]
      simp only [h, if_false, Bool.false_eq_true]
      rw [ih a (b + 1)]
      simp [List.filter_cons, h, Prod.ext_iff]
      omega

theorem filter_length_split {α : Type} (P : α → Bool) :
    ∀ l : List α,
      (l.filter P).length + (l.filter (fun x => !(P x))).length
        = l.length := by
  intro l
  induction l with
  | nil => simp
  | cons y ys ih =>
    by_cases h : P y = true
    · simp [List.filter_cons, h]
      omega
    · simp [List.filter_cons, h]
      omega

/-- C4 counterexample: an originally-closed issue whose creation succeeds
(201) but whose follow-up close fails (500). The close failure is reported
(the failure message of line 373 is printed for the item) yet the item is
tallied as a success: the run's final tally is 1 success and 0 failures, so
the closing failure is counted nowhere — refuting the clause that closing
failures are counted. -/
theorem closing_failure_not_counted :
    create_issue_with_close closedIssue 201 500 = (true, true, true)
  ∧ copy_issues_tally [(closedIssue, 201, 500)] = (1, 0)
  ∧ (500 : Nat) ≠ 200 := by
  refine ⟨by decide, by decide, by decide⟩

/-- C4 (amended): every issue of the batch is processed and the run never
aborts: the loop's final tally counts each issue exactly once — successes
are exactly the 201 creations, failures exactly the rest — and the two
counters sum to the batch size. An individual creation failure is reported
for its item (the returned value is false exactly when the status is not
201) and counted; an individual closing failure is reported for its item
(exactly when a 201 creation of an originally closed issue got a non-200
close response) but is not counted: the loop's value for an item is
independent of the close response, so the item still tallies as a success.
The close-aware model agrees with `create_issue` on the returned value and
on whether the close request is sent. -/
theorem copy_issues_error_tolerance (run : List (IssueRec × Nat × Nat)) :
    copy_issues_tally run
      = ((run.filter
            (fun x => (create_issue_with_close x.1 x.2.1 x.2.2).1)).length,
         (run.filter
            (fun x => !(create_issue_with_close x.1 x.2.1 x.2.2).1)).length)
  ∧ (copy_issues_tally run).1 + (copy_issues_tally run).2 = run.length
  ∧ (∀ (i : IssueRec) (cs c1 c2 : Nat),
      (create_issue_with_close i cs c1).1 = (create_issue_with_close i cs c2).1)
  ∧ (∀ (i : IssueRec) (cs cl : Nat),
      (create_issue_with_close i cs cl).1 = false ↔ cs ≠ 201)
  ∧ (∀ (i : IssueRec) (cs cl : Nat),
      (create_issue_with_close i cs cl).2.2 = true
        ↔ (cs = 201 ∧ i.state = "closed" ∧ cl ≠ 200))
  ∧ (∀ (i : IssueRec) (cs cl : Nat),
      (create_issue_with_close i cs cl).1 = (create_issue i cs).1
      ∧ (create_issue_with_close i cs cl).2.1 = (create_issue i cs).2) := by
  have h := copy_issues_tally_go run 0 0
  simp only [Nat.zero_add] at h
  refine ⟨by rw [copy_issues_tally, h], ?_, ?_, ?_, ?_, ?_⟩
  · rw [copy_issues_tally, h]
    exact filter_length_split
      (fun x => (create_issue_with_close x.1 x.2.1 x.2.2).1) run
  · intro i cs c1 c2
    by_cases hc : cs = 201
    · by_cases hs : i.state = "closed" <;>
        simp [create_issue_with_close, hc, hs]
    · simp [create_issue_with_close, hc]
  · intro i cs cl
    by_cases hc : cs = 201
    · by_cases hs : i.state = "closed" <;>
        simp [create_issue_with_close, hc, hs]
    · simp [create_issue_with_close, hc]
  · intro i cs cl
    by_cases hc : cs = 201
    · by_cases hs : i.state = "closed"
      · by_cases hcl : cl = 200 <;>
          simp [create_issue_with_close, close_issue, hc, hs, hcl]
      · simp [create_issue_with_close, hc, hs]
    · simp [create_issue_with_close, hc]
  · intro i cs cl
    by_cases hc : cs = 201
    · by_cases hs : i.state = "closed" <;>
        simp [create_issue_with_close, create_issue, hc, hs]
    · simp [create_issue_with_close, create_issue, hc]

theorem copy_issues_error_tolerance_witness :
    (copy_issues_tally [(closedIssue, 201, 200), (sampleIssue, 500, 0)]).1
      + (copy_issues_tally [(closedIssue, 201, 200), (sampleIssue, 500, 0)]).2
      = ([(closedIssue, 201, 200), (sampleIssue, 500, 0)]
          : List (IssueRec × Nat × Nat)).length
  ∧ (create_issue_with_close closedIssue 201 404).2.2 = true :=
  ⟨(copy_issues_error_tolerance
      [(closedIssue, 201, 200), (sampleIssue, 500, 0)]).2.1,
   ((copy_issues_error_tolerance
      [(closedIssue, 201, 200), (sampleIssue, 500, 0)]).2.2.2.2.1
        closedIssue 201 404).mpr ⟨rfl, rfl, by decide⟩⟩

/-! ## The error-surfacing policy (C8)

`run_command` (lines 151-165) raises on every non-zero exit; the required
API calls check for their success status and abort the run. But the
paginated issue listing (lines 289-292) only logs a non-200 and stops the
loop — the run continues with the issues collected so far — and the
`git status --porcelain` query (lines 240-246) bypasses `run_command`, so
its exit code is never inspected. -/

/-- C8 counterexample: a failed HTTP call on the issue-listing path does not
surface as a run-ending error. A 500 on the first listing page produces
exactly the same normal return as a successful empty 200 page — the loop
just stops and the run continues with the issues collected so far — even
though the listing is not one of the claim's two tolerated paths
(issue creation, credential helper). -/
theorem listing_failure_not_run_ending :
    get_issues [{ status := 500, items := [] }]
      = get_issues [{ status := 200, items := [] }]
  ∧ (500 : Nat) ≠ 200 := by
  constructor
  · rfl
  · decide

/-- A `copy_source_code` run whose git subprocesses all succeed except the
`git status --porcelain` query, which exits non-zero with empty output. -/
def statusFailOutcomes : GitOutcomes :=
  { clone_source_exit := 0, clone_dest_exit := 0, config_email_exit := 0,
    config_name_exit := 0, add_exit := 0, status_exit := 9,
    status_stdout := [], commit_exit := 0, push_exit := 0 }

/-- C8 (amended): failed calls surface as run-ending errors through
`run_command`, which raises exactly on a non-zero exit code, and through the
status checks on the required API calls — except in the tolerant paths:
individual issue creation/closing failures, absence or timeout of the
credential helper, a non-200 on the paginated issue listing (which only
stops pagination; the run continues, returning the issues collected so
far), and the `git status --porcelain` query, whose exit code is never
inspected (a non-zero status exit with empty output leaves
`copy_source_code` fully successful). -/
theorem error_surfacing_policy (cmd : List String) (exitCode : Nat)
    (s : Nat) (items : List IssueRec) (rest : List PageResp)
    (o : GitOutcomes) (src : List FSEntry)
    (destClone : List (RelPath × FileBytes)) :
    (exitCode ≠ 0 →
      run_command cmd exitCode
        = Except.error ("Command failed: " ++ String.intercalate " " cmd))
  ∧ (exitCode = 0 → run_command cmd exitCode = Except.ok ())
  ∧ (s ≠ 200 → get_issues ({ status := s, items := items } :: rest) = (1, []))
  ∧ (o.clone_source_exit = 0 → o.clone_dest_exit = 0 →
     o.config_email_exit = 0 → o.config_name_exit = 0 → o.add_exit = 0 →
     pyStrip o.status_stdout = [] →
     (copy_source_code o src destClone).1
        = Except.ok (mirror src destClone)) := by
  refine ⟨?_, ?_, ?_, ?_⟩
  · intro h
    simp [run_command, h]
  · intro h
    simp [run_command, h]
  · intro h
    simp only [get_issues]
    rw [if_pos (by simpa using h)]
  · intro h1 h2 h3 h4 h5 h6
    unfold copy_source_code copy_source_code_try
    rw [h1, h2, h3, h4, h5]
    simp [run_command, h6]

theorem error_surfacing_policy_witness :
    run_command ["git", "push", "origin", "HEAD"] 1
      = Except.error ("Command failed: "
          ++ String.intercalate " " ["git", "push", "origin", "HEAD"])
  ∧ get_issues [{ status := 500, items := [sampleIssue] },
      { status := 200, items := [] }] = (1, [])
  ∧ (copy_source_code statusFailOutcomes srcEx destEx).1
      = Except.ok (mirror srcEx destEx) :=
  ⟨(error_surfacing_policy ["git", "push", "origin", "HEAD"] 1 500
      [sampleIssue] [] statusFailOutcomes srcEx destEx).1 (by decide),
   (error_surfacing_policy ["git", "push", "origin", "HEAD"] 1 500
      [sampleIssue] [{ status := 200, items := [] }] statusFailOutcomes srcEx
      destEx).2.2.1 (by decide),
   (error_surfacing_policy ["git", "push", "origin", "HEAD"] 1 500
      [sampleIssue] [] statusFailOutcomes srcEx destEx).2.2.2 rfl rfl rfl rfl
      rfl (by decide)⟩

/-! ## Repository-pair validation in `main` (lines 500-503)

`main` rejects an argument with
`if '/' not in repo_value or len(repo_value.split('/')) != 2`, before any
credential lookup or network call. Python's `split('/')` on the
per-character embedding: -/

/-- One step of the split: put `c` in front of the already-split remainder
(`c = '/'` opens a fresh empty group). -/
def pySplitCons (c : Char) : List (List Char) → List (List Char)
  | [] => [[]]
  | g :: gs => if c = '/' then [] :: g :: gs else (c :: g) :: gs

/-- Python's `s.split('/')`: the groups of characters between the
occurrences of `'/'` (always at least one group, possibly empty ones). -/
def pySplitSlash : List Char → List (List Char)
  | [] => [[]]
  | c :: rest => pySplitCons c (pySplitSlash rest)

/-- Lines 501-503: a repository argument is accepted when it contains a
`'/'` and splits into exactly two groups. -/
def repo_format_ok (s : List Char) : Bool :=
  s.contains '/' && (pySplitSlash s).length == 2

/-- Lines 500-503: the validation loop over the source and destination
arguments; `parser.error` (a non-zero exit) fires at the first invalid one,
before any credential lookup or network activity. -/
def main_validate (source dest : List Char) : Except String Unit :=
  if repo_format_ok source then
    if repo_format_ok dest then Except.ok ()
    else Except.error "Invalid dest repository format"
  else Except.error "Invalid source repository format"

theorem pySplitSlash_ne_nil (s : List Char) : pySplitSlash s ≠ [] := by
  cases s with
  | nil => simp [pySplitSlash]
  | cons c rest =>
    simp only [pySplitSlash]
    cases pySplitSlash rest with
    | nil => simp [pySplitCons]
    | cons g gs =>
      by_cases h : c = '/' <;> simp [pySplitCons, h]

theorem pySplitSlash_length (s : List Char) :
    (pySplitSlash s).length = s.count '/' + 1 := by
  induction s with
  | nil => simp [pySplitSlash]
  | cons c rest ih =>
    simp only [pySplitSlash]
    cases hrec : pySplitSlash rest with
    | nil => exact absurd hrec (pySplitSlash_ne_nil rest)
    | cons g gs =>
      rw [hrec] at ih
      simp only [pySplitCons]
      by_cases h : c = '/'
      · rw [if_pos h, h]
        simp only [List.length_cons] at ih ⊢
        rw [List.count_cons_self]
        omega
      · rw [if_neg h]
        simp only [List.length_cons] at ih ⊢
        rw [List.count_cons_of_ne (Ne.symm h)]
        omega

/-- C9 counterexample: the single-character argument `"/"` has one separator
but an empty owner part and an empty name part; the claim says it must be
rejected, yet the format check accepts it (`'/' in s` holds and
`s.split('/')` has two — empty — groups). -/
theorem repo_format_empty_parts_accepted :
    repo_format_ok ['/'] = true
  ∧ pySplitSlash ['/'] = [[], []]
  ∧ main_validate ['/'] ['/'] = Except.ok () := by
  refine ⟨by decide, by decide, rfl⟩

/-- C9 (amended): the program accepts a repository argument exactly when it
contains exactly one separator character `'/'` — the owner part and the
name part may be empty — and `main` errors out (non-zero exit, before any
network activity) exactly when one of the two arguments does not have
exactly one separator. -/
theorem repo_format_characterization (s source dest : List Char) :
    (repo_format_ok s = true ↔ s.count '/' = 1)
  ∧ (main_validate source dest = Except.ok ()
      ↔ (source.count '/' = 1 ∧ dest.count '/' = 1)) := by
  have hchar : ∀ t : List Char, repo_format_ok t = true ↔ t.count '/' = 1 := by
    intro t
    unfold repo_format_ok
    rw [Bool.and_eq_true, beq_iff_eq, pySplitSlash_length]
    constructor
    · rintro ⟨_, hlen⟩
      omega
    · intro hcnt
      refine ⟨?_, by omega⟩
      have hmem : '/' ∈ t := List.count_pos_iff.mp (by omega)
      exact List.elem_eq_true_of_mem hmem
  refine ⟨hchar s, ?_⟩
  unfold main_validate
  by_cases hs : repo_format_ok source = true
  · rw [if_pos hs]
    by_cases hd : repo_format_ok dest = true
    · rw [if_pos hd]
      simp [(hchar source).mp hs, (hchar dest).mp hd]
    · rw [if_neg hd]
      have : ¬ dest.count '/' = 1 := fun h => hd ((hchar dest).mpr h)
      simp [this]
  · rw [if_neg hs]
    have : ¬ source.count '/' = 1 := fun h => hs ((hchar source).mpr h)
    simp [this]

theorem repo_format_characterization_witness :
    repo_format_ok "octo/demo".data = true
  ∧ main_validate "a/b".data "c/d".data = Except.ok () :=
  ⟨(repo_format_characterization "octo/demo".data "a/b".data "c/d".data).1.mpr
      (by decide),
   (repo_format_characterization "octo/demo".data "a/b".data
      "c/d".data).2.mpr ⟨by decide, by decide⟩⟩

end CopyRepo
